import Mathlib

/-!
Verification of the TN-by-Night event pipeline: a shallow embedding of the
heatmap aggregation module (backend/utils/heatmap.py), the city resolver and
listing crawler (backend/scraping/scraper.py), and the CSV-import upsert step
(backend/routes/events.py), together with theorems about their behaviour.
-/

namespace TNBN

/-! ### Python string primitives

Models of the Python `str` operations the code uses: `str.strip()`,
`str.lower()` (ASCII range; the non-ASCII letters appearing in the data are
already lower case where it matters), `str.startswith`, substring membership
`in`, and word-boundary regex search as used by the resolver. -/

/-- Characters removed by Python `str.strip()` with no argument. -/
def pyIsSpace (c : Char) : Bool :=
  c = ' ' || c = '\t' || c = '\n' || c = '\r' || c = '\x0b' || c = '\x0c'

def pyStripChars (l : List Char) : List Char :=
  ((l.dropWhile pyIsSpace).reverse.dropWhile pyIsSpace).reverse

/-- Python `s.strip()`. -/
def pyStrip (s : String) : String := ⟨pyStripChars s.data⟩

def pyLowerChar (c : Char) : Char :=
  if 'A' ≤ c && c ≤ 'Z' then Char.ofNat (c.toNat + 32) else c

/-- Python `s.lower()` on ASCII letters; other characters are kept. -/
def pyLower (s : String) : String := ⟨s.data.map pyLowerChar⟩

/-- Does the second list start with the first one? -/
def listStarts : List Char → List Char → Bool
  | [], _ => true
  | _ :: _, [] => false
  | k :: ks, t :: ts => if k = t then listStarts ks ts else false

/-- Python `needle in haystack` on character lists. -/
def subSearch (needle : List Char) : List Char → Bool
  | [] => listStarts needle []
  | c :: rest => listStarts needle (c :: rest) || subSearch needle rest

/-- Python `needle in haystack` for strings. -/
def pyIn (needle haystack : String) : Bool := subSearch needle.data haystack.data

/-- A word character for the regex `\b` boundary: ASCII `[a-zA-Z0-9_]` plus
any non-ASCII character (Python regexes on `str` are Unicode-aware and the
accented letters occurring in the data are word characters). -/
def isWordChar (c : Char) : Bool :=
  ('a' ≤ c && c ≤ 'z') || ('A' ≤ c && c ≤ 'Z') || ('0' ≤ c && c ≤ '9') ||
    c = '_' || 128 ≤ c.toNat

/-- The key matches at the head of the text and the character after the match,
if any, is not a word character. -/
def wordMatchAt (key text : List Char) : Bool :=
  listStarts key text &&
    (match text.drop key.length with
     | [] => true
     | c :: _ => !isWordChar c)

/-- Scan the text for a word-boundary match of the key; `prevWord` records
whether the character just before the current position is a word character. -/
def wordSearchAux (key : List Char) (prevWord : Bool) : List Char → Bool
  | [] => false
  | c :: rest =>
    (!prevWord && wordMatchAt key (c :: rest)) || wordSearchAux key (isWordChar c) rest

/-- Python `re.search(rf"\b{key}\b", text) is not None`, for keys made of word
characters (all keys searched by the code are). -/
def reSearchWord (key text : String) : Bool :=
  wordSearchAux key.data false text.data

/-! ### Association-list model of Python dicts

The heatmap module builds dicts whose keys are fixed at initialisation and
only mutates values in place; an association list in insertion order with
first-match lookup and in-place update models this exactly. -/

def alMem {α : Type} (k : String) : List (String × α) → Bool
  | [] => false
  | (k2, _) :: t => if k2 = k then true else alMem k t

def alGet {α : Type} (k : String) : List (String × α) → Option α
  | [] => none
  | (k2, v) :: t => if k2 = k then some v else alGet k t

def alUpdate {α : Type} (k : String) (f : α → α) : List (String × α) → List (String × α)
  | [] => []
  | (k2, v) :: t => if k2 = k then (k2, f v) :: t else (k2, v) :: alUpdate k f t

/-- Python `d.get(k, dflt)` for a string-valued dict. -/
def dictGetD (d : List (String × String)) (k dflt : String) : String :=
  match d.find? (fun p => decide (p.1 = k)) with
  | some p => p.2
  | none => dflt

/-! ### heatmap.py: data and functions -/

/-- `TUNISIAN_GOVERNORATES` from backend/utils/heatmap.py. -/
def TUNISIAN_GOVERNORATES : List String :=
  ["Ariana", "Béja", "Ben Arous", "Bizerte", "Gabès", "Gafsa",
   "Jendouba", "Kairouan", "Kasserine", "Kebili", "Kef", "Mahdia",
   "Manouba", "Medenine", "Monastir", "Nabeul", "Sfax", "Sidi Bouzid",
   "Siliana", "Sousse", "Tataouine", "Tozeur", "Tunis", "Zaghouan"]

/-- `CITY_TO_GOVERNORATE` from backend/utils/heatmap.py, in source order. -/
def CITY_TO_GOVERNORATE : List (String × String) :=
  [("Tunis", "Tunis"), ("Ariana", "Ariana"), ("Ben Arous", "Ben Arous"),
   ("Manouba", "Manouba"), ("Nabeul", "Nabeul"), ("Zaghouan", "Zaghouan"),
   ("Bizerte", "Bizerte"), ("Béja", "Béja"), ("Jendouba", "Jendouba"),
   ("Kef", "Kef"), ("Siliana", "Siliana"), ("Sousse", "Sousse"),
   ("Monastir", "Monastir"), ("Mahdia", "Mahdia"), ("Sfax", "Sfax"),
   ("Kairouan", "Kairouan"), ("Kasserine", "Kasserine"),
   ("Sidi Bouzid", "Sidi Bouzid"), ("Gabès", "Gabès"),
   ("Medenine", "Medenine"), ("Tataouine", "Tataouine"), ("Gafsa", "Gafsa"),
   ("Tozeur", "Tozeur"), ("Kebili", "Kebili")]

/-- An event record as the heatmap functions see it: a dict from which only
the `city` entry is read (`event.get('city', '')`); the remaining fields are
carried along because `get_heatmap_data` stores whole records in its samples. -/
structure PyEvent where
  city? : Option String := none
  name : String := ""
  url : String := ""
  tag : Nat := 0
deriving DecidableEq

/-- `event.get('city', '').strip()`. -/
def eventCity (e : PyEvent) : String := pyStrip (e.city?.getD "")

/-- The sentinel list `['Unknown', 'Error', 'Pending']` of heatmap.py. -/
def skipCities : List String := ["Unknown", "Error", "Pending"]

/-- `CITY_TO_GOVERNORATE.get(city, city)`. -/
def cityToGov (city : String) : String := dictGetD CITY_TO_GOVERNORATE city city

/-- `get_color_for_score` from backend/utils/heatmap.py. -/
def get_color_for_score (score : Nat) : String :=
  if score = 0 then "#3388FF"
  else if 1 ≤ score ∧ score ≤ 3 then "#FFD700"
  else if 4 ≤ score ∧ score ≤ 6 then "#FF8800"
  else "#FF0000"

/-- `{gov: 0 for gov in TUNISIAN_GOVERNORATES}`. -/
def initScores : List (String × Nat) := TUNISIAN_GOVERNORATES.map (fun g => (g, 0))

/-- The body of the loop of `calculate_governorate_scores` for one event. -/
def scoreStep (scores : List (String × Nat)) (e : PyEvent) : List (String × Nat) :=
  let city := eventCity e
  if city = "" ∨ city ∈ skipCities then scores
  else
    let governorate := cityToGov city
    if alMem governorate scores then alUpdate governorate (· + 1) scores
    else if alMem city scores then alUpdate city (· + 1) scores
    else scores

/-- `calculate_governorate_scores` from backend/utils/heatmap.py. -/
def calculate_governorate_scores (events : List PyEvent) : List (String × Nat) :=
  events.foldl scoreStep initScores

/-- `sum(scores.values())`. -/
def sumValues (l : List (String × Nat)) : Nat := (l.map Prod.snd).sum

/-- The per-governorate record built by `get_heatmap_data`. -/
structure GovData where
  score : Nat
  color : String
  events_count : Nat
  events : List PyEvent
deriving DecidableEq

/-- The initial dict of `get_heatmap_data`. -/
def heatInit : List (String × GovData) :=
  TUNISIAN_GOVERNORATES.map (fun g => (g, ⟨0, get_color_for_score 0, 0, []⟩))

/-- The in-place mutation `get_heatmap_data` performs on the bucket an event
lands in: bump the count and score, recolour, and append the event to the
sample when it still has fewer than 5 entries. -/
def bumpGov (e : PyEvent) (d : GovData) : GovData :=
  { score := d.score + 1
    color := get_color_for_score (d.score + 1)
    events_count := d.events_count + 1
    events := if d.events.length < 5 then d.events ++ [e] else d.events }

/-- The body of the loop of `get_heatmap_data` for one event. -/
def heatStep (hd : List (String × GovData)) (e : PyEvent) : List (String × GovData) :=
  let city := eventCity e
  if city = "" ∨ city ∈ skipCities then hd
  else
    let governorate := cityToGov city
    let target : Option String :=
      if alMem governorate hd then some governorate
      else if alMem city hd then some city
      else none
    match target with
    | none => hd
    | some t => alUpdate t (bumpGov e) hd

/-- `get_heatmap_data` from backend/utils/heatmap.py. -/
def get_heatmap_data (events : List PyEvent) : List (String × GovData) :=
  events.foldl heatStep heatInit

/-- The result record of `get_heatmap_summary`. -/
structure HeatmapSummary where
  total_events : Nat
  active_governorates : Nat
  total_governorates : Nat
  governorates_with_events : List String
deriving DecidableEq

/-- `get_heatmap_summary` from backend/utils/heatmap.py. -/
def get_heatmap_summary (events : List PyEvent) : HeatmapSummary :=
  let scores := calculate_governorate_scores events
  { total_events := sumValues scores
    active_governorates := (scores.map Prod.snd).countP (fun v => decide (0 < v))
    total_governorates := TUNISIAN_GOVERNORATES.length
    governorates_with_events := (scores.filter (fun p => decide (0 < p.2))).map Prod.fst }

/-- Is an event counted by the aggregation loop: its stripped city is not
empty and not a sentinel, and normalisation lands in the taxonomy (either the
normalised name or the raw name is a bucket). -/
def countedEvent (e : PyEvent) : Bool :=
  let city := eventCity e
  if city = "" ∨ city ∈ skipCities then false
  else if cityToGov city ∈ TUNISIAN_GOVERNORATES then true
  else if city ∈ TUNISIAN_GOVERNORATES then true
  else false

/-- The bucket an event lands in, phrased against the fixed taxonomy. -/
def eventTarget (e : PyEvent) : Option String :=
  let city := eventCity e
  if city = "" ∨ city ∈ skipCities then none
  else
    let governorate := cityToGov city
    if governorate ∈ TUNISIAN_GOVERNORATES then some governorate
    else if city ∈ TUNISIAN_GOVERNORATES then some city
    else none

/-- The score of one governorate bucket. -/
def govScore (events : List PyEvent) (g : String) : Nat :=
  (alGet g (calculate_governorate_scores events)).getD 0

/-- The bucket value determined by the matching events of a governorate. -/
def mkBucket (l : List PyEvent) : GovData :=
  ⟨l.length, get_color_for_score l.length, l.length, l.take 5⟩

/-! ### The normalisation table as an identity, and the dead fallback branch -/

/-- The simplified scorer described by the claim: normalise through the table
and count only when the normalised name is a taxonomy bucket; there is no
raw-city fallback branch. -/
def scoreStepSimple (scores : List (String × Nat)) (e : PyEvent) : List (String × Nat) :=
  let city := eventCity e
  if city = "" ∨ city ∈ skipCities then scores
  else
    let governorate := cityToGov city
    if alMem governorate scores then alUpdate governorate (· + 1) scores
    else scores

def calculate_scores_simple (events : List PyEvent) : List (String × Nat) :=
  events.foldl scoreStepSimple initScores

/-! ### The Unknown-to-Tunis coercion and Error events -/

/-- The coercion applied by the orchestrator loop of scrape_events to a
resolver result before it is assigned to the event (IMPLICIT TUNIS RULE). -/
def applyTunisRule (city : String) : String :=
  if city = "Unknown" then "Tunis" else city

/-! ### scraper.py: the city resolver -/

/-- `TUNISIAN_CITIES` from backend/scraping/scraper.py, in source order. -/
def TUNISIAN_CITIES : List String :=
  ["Tunis", "Ariana", "Ben Arous", "Manouba", "Nabeul", "Zaghouan",
   "Bizerte", "Béja", "Jendouba", "Kef", "Siliana", "Sousse",
   "Monastir", "Mahdia", "Sfax", "Kairouan", "Kasserine", "Sidi Bouzid",
   "Gabès", "Medenine", "Tataouine", "Gafsa", "Tozeur", "Kebili"]

/-- `CITY_ALIASES`, in source order. -/
def CITY_ALIASES : List (String × String) :=
  [("monastir", "Monastir"), ("mehdia", "Mahdia"), ("mahdia", "Mahdia"),
   ("sfax", "Sfax"), ("sousse", "Sousse"), ("kairouan", "Kairouan")]

/-- `VENUE_CITY_MAP`, in source order. -/
def VENUE_CITY_MAP : List (String × String) :=
  [("théâtre municipal", "Tunis"), ("theatre municipal", "Tunis"),
   ("colisée", "Tunis"), ("4ème art", "Tunis"), ("africa art center", "Tunis"),
   ("complexe culturel sfax", "Sfax"),
   ("maison de la culture mahdia", "Mahdia"),
   ("maison de la culture monastir", "Monastir")]

/-- The text content of the address blocks and venue blocks of an event page,
each list in selector-then-DOM order, as extract_city_from_event_page reads
them. -/
structure EventPage where
  addressBlocks : List String
  venueBlocks : List String
deriving DecidableEq

/-- The outcome of navigating to the event page: loaded content, or a raised
navigation error. -/
inductive FetchOutcome where
  | ok (page : EventPage)
  | failed
deriving DecidableEq

/-- Tier 1 of the resolver: the title-based alias search. In Python the tier
runs only when event_name is truthy, that is neither None nor empty. -/
def titleTier (event_name : Option String) : Option String :=
  match event_name with
  | none => none
  | some n =>
    if n = "" then none
    else (CITY_ALIASES.find? (fun p => reSearchWord p.1 (pyLower n))).map Prod.snd

/-- Tier 2: the first city of TUNISIAN_CITIES with a word-boundary match in an
address block, blocks scanned in order. -/
def addressTier (page : EventPage) : Option String :=
  page.addressBlocks.findSome? (fun block =>
    TUNISIAN_CITIES.find? (fun city => reSearchWord (pyLower city) (pyLower block)))

/-- Tier 3: the first venue key contained in a venue block maps to its city. -/
def venueTier (page : EventPage) : Option String :=
  page.venueBlocks.findSome? (fun block =>
    (VENUE_CITY_MAP.find? (fun p => pyIn p.1 (pyLower block))).map Prod.snd)

/-- extract_city_from_event_page from backend/scraping/scraper.py: the page
navigation comes first and its failure is the except branch returning Error;
then the three tiers run in order, falling through to Unknown. -/
def extract_city_from_event_page (fetch : FetchOutcome)
    (event_name : Option String) : String :=
  match fetch with
  | .failed => "Error"
  | .ok page =>
    match titleTier event_name with
    | some city => city
    | none =>
      match addressTier page with
      | some city => city
      | none =>
        match venueTier page with
        | some city => city
        | none => "Unknown"

/-! ### scraper.py: the listing crawler and URL deduplication -/

/-- One listing container as the crawler reads it: the link anchor may be
missing, its href attribute may be missing or empty (both skipped); the other
extracted fields are carried through already defaulted. -/
structure CrawlItem where
  link? : Option (Option String)
  name : String := "Unknown"
  place : String := "N/A"
  date : String := "N/A"
  price : String := "N/A"
deriving DecidableEq

/-- The href the crawler proceeds with: anchor present, attribute present and
truthy (`if not href: continue`). -/
def rawHref (it : CrawlItem) : Option String :=
  match it.link? with
  | some (some h) => if h = "" then none else some h
  | _ => none

/-- Relative hrefs are prefixed with the site origin. -/
def resolveHref (href : String) : String :=
  if listStarts "http".data href.data then href else "https://teskerti.tn" ++ href

structure ScrapedEvent where
  name : String
  place : String
  date : String
  price : String
  url : String
  city : String
deriving DecidableEq

/-- The record appended for one surviving item; city starts as Pending. -/
def mkScraped (it : CrawlItem) (href : String) : ScrapedEvent :=
  ⟨it.name, it.place, it.date, it.price, href, "Pending"⟩

/-- One iteration of the container loop of scrape_events, over the pair of the
accumulated events list and seen_urls (kept in insertion order; the loop only
tests membership). -/
def crawlStep (acc : List ScrapedEvent × List String) (it : CrawlItem) :
    List ScrapedEvent × List String :=
  match rawHref it with
  | none => acc
  | some h =>
    let href := resolveHref h
    if href ∈ acc.2 then acc
    else (acc.1 ++ [mkScraped it href], acc.2 ++ [href])

/-- The event list produced by the container loop of scrape_events. -/
def collectEvents (items : List CrawlItem) : List ScrapedEvent :=
  (items.foldl crawlStep ([], [])).1

/-- The valid items paired with their resolved urls, in crawl order. -/
def resolvedItems (items : List CrawlItem) : List (CrawlItem × String) :=
  items.filterMap (fun it => (rawHref it).map (fun h => (it, resolveHref h)))

/-! ### routes/events.py: the CSV import upsert -/

/-- A stored event row of the sink; timestamps are abstracted as naturals. -/
structure DBEvent where
  id : Nat
  name : String
  place : String
  date : String
  price : String
  url : String
  city : String
  status : String
  scraped_at : Nat
  updated_at : Nat
deriving DecidableEq

/-- One CSV row as read through row.get: an absent key yields the default;
scraped_at? is the parsed timestamp when the field is present and truthy. -/
structure CsvRow where
  name? : Option String := none
  place? : Option String := none
  date? : Option String := none
  price? : Option String := none
  url? : Option String := none
  city? : Option String := none
  scraped_at? : Option Nat := none
deriving DecidableEq

/-- `row.get('url', '')`. -/
def rowUrl (row : CsvRow) : String := row.url?.getD ""

/-- The mutation handle_csv_import applies to an existing event with the same
url: the five record fields fall back to the stored value when the CSV key is
absent, updated_at is refreshed to now, status is forced to approved, and
scraped_at is overwritten only when supplied. -/
def updateExisting (ev : DBEvent) (row : CsvRow) (now : Nat) : DBEvent :=
  { ev with
    name := row.name?.getD ev.name
    place := row.place?.getD ev.place
    date := row.date?.getD ev.date
    price := row.price?.getD ev.price
    city := row.city?.getD ev.city
    updated_at := now
    status := "approved"
    scraped_at := match row.scraped_at? with
      | some t => t
      | none => ev.scraped_at }

/-- The new Event record created when no stored event carries the url. -/
def newEventFromRow (row : CsvRow) (now : Nat) (newId : Nat) : DBEvent :=
  { id := newId
    name := row.name?.getD "Unknown"
    place := row.place?.getD "N/A"
    date := row.date?.getD "N/A"
    price := row.price?.getD "N/A"
    url := rowUrl row
    city := row.city?.getD "Unknown"
    status := "approved"
    scraped_at := row.scraped_at?.getD now
    updated_at := now }

/-- Mutate the first stored event carrying the given url in place. -/
def dbUpdateByUrl (u : String) (f : DBEvent → DBEvent) : List DBEvent → List DBEvent
  | [] => []
  | ev :: rest => if ev.url = u then f ev :: rest else ev :: dbUpdateByUrl u f rest

structure ImportState where
  db : List DBEvent
  imported : Nat
  skipped : Nat
deriving DecidableEq

/-- One row of the import loop of handle_csv_import. The conflict flag tells
whether the uniqueness constraint raises IntegrityError on this insert; the
exception is rolled back and the row counted as skipped, which the response
reports as updated. -/
def importRow (st : ImportState) (row : CsvRow) (now : Nat) (conflict : Bool)
    (newId : Nat) : ImportState :=
  match st.db.find? (fun ev => decide (ev.url = rowUrl row)) with
  | some _ =>
    { st with
      db := dbUpdateByUrl (rowUrl row) (fun e0 => updateExisting e0 row now) st.db
      skipped := st.skipped + 1 }
  | none =>
    if conflict then { st with skipped := st.skipped + 1 }
    else { st with
      db := st.db ++ [newEventFromRow row now newId]
      imported := st.imported + 1 }

/-! ### Association-list lemmas -/

theorem alMem_iff {α : Type} (k : String) (l : List (String × α)) :
    alMem k l = true ↔ k ∈ l.map Prod.fst := by
  induction l with
  | nil => simp [alMem]
  | cons p t ih =>
    obtain ⟨k2, v⟩ := p
    by_cases h : k2 = k
    · simp [alMem, h]
    · simp only [alMem, if_neg h, List.map_cons, List.mem_cons]
      rw [ih]
      constructor
      · exact Or.inr
      · rintro (hh | hh)
        · exact absurd hh.symm h
        · exact hh

theorem alUpdate_keys {α : Type} (k : String) (f : α → α) (l : List (String × α)) :
    (alUpdate k f l).map Prod.fst = l.map Prod.fst := by
  induction l with
  | nil => rfl
  | cons p t ih =>
    obtain ⟨k2, v⟩ := p
    by_cases h : k2 = k <;> simp [alUpdate, h, ih]

theorem alGet_update_self {α : Type} (k : String) (f : α → α) (l : List (String × α)) :
    alGet k (alUpdate k f l) = (alGet k l).map f := by
  induction l with
  | nil => rfl
  | cons p t ih =>
    obtain ⟨k2, v⟩ := p
    by_cases h : k2 = k <;> simp [alUpdate, alGet, h, ih]

theorem alGet_update_ne {α : Type} (g k : String) (f : α → α) (l : List (String × α))
    (h : g ≠ k) : alGet g (alUpdate k f l) = alGet g l := by
  induction l with
  | nil => rfl
  | cons p t ih =>
    obtain ⟨k2, v⟩ := p
    by_cases hk : k2 = k
    · have hne : ¬ k2 = g := fun hh => h (hh.symm.trans hk)
      simp only [alUpdate, if_pos hk, alGet, if_neg hne]
    · by_cases hg : k2 = g
      · simp only [alUpdate, if_neg hk, alGet, if_pos hg]
      · simp only [alUpdate, if_neg hk, alGet, if_neg hg, ih]

theorem sumValues_update_succ (k : String) (l : List (String × Nat))
    (h : alMem k l = true) :
    sumValues (alUpdate k (· + 1) l) = sumValues l + 1 := by
  induction l with
  | nil => simp [alMem] at h
  | cons p t ih =>
    obtain ⟨k2, v⟩ := p
    by_cases hk : k2 = k
    · simp [alUpdate, hk, sumValues]
      omega
    · simp only [alMem, if_neg hk] at h
      have := ih h
      simp only [alUpdate, if_neg hk, sumValues, List.map_cons, List.sum_cons] at this ⊢
      omega

/-! ### Key-set preservation through the aggregation folds -/

theorem scoreStep_keys (scores : List (String × Nat)) (e : PyEvent) :
    (scoreStep scores e).map Prod.fst = scores.map Prod.fst := by
  simp only [scoreStep]
  split
  · rfl
  · split
    · exact alUpdate_keys ..
    · split
      · exact alUpdate_keys ..
      · rfl

theorem foldl_scoreStep_keys (events : List PyEvent) (scores : List (String × Nat)) :
    (events.foldl scoreStep scores).map Prod.fst = scores.map Prod.fst := by
  induction events generalizing scores with
  | nil => rfl
  | cons e es ih => rw [List.foldl_cons, ih, scoreStep_keys]

theorem initScores_keys : initScores.map Prod.fst = TUNISIAN_GOVERNORATES := by rfl

theorem heatStep_keys (hd : List (String × GovData)) (e : PyEvent) :
    (heatStep hd e).map Prod.fst = hd.map Prod.fst := by
  simp only [heatStep]
  split
  · rfl
  · split <;> first | rfl | exact alUpdate_keys ..

theorem foldl_heatStep_keys (events : List PyEvent) (hd : List (String × GovData)) :
    (events.foldl heatStep hd).map Prod.fst = hd.map Prod.fst := by
  induction events generalizing hd with
  | nil => rfl
  | cons e es ih => rw [List.foldl_cons, ih, heatStep_keys]

theorem heatInit_keys : heatInit.map Prod.fst = TUNISIAN_GOVERNORATES := by rfl

/-! ### Claim theorems: colors, sums, key sets -/

/-- Claim C6: get_color_for_score is total on the naturals with exactly the
bands 0 to blue, 1..3 to yellow, 4..6 to orange and 7 and above to red; the
four disjoint bands cover every non-negative score. -/
theorem color_banding (s : Nat) :
    (s = 0 ∧ get_color_for_score s = "#3388FF") ∨
    (1 ≤ s ∧ s ≤ 3 ∧ get_color_for_score s = "#FFD700") ∨
    (4 ≤ s ∧ s ≤ 6 ∧ get_color_for_score s = "#FF8800") ∨
    (7 ≤ s ∧ get_color_for_score s = "#FF0000") := by
  by_cases h0 : s = 0
  · exact Or.inl ⟨h0, by rw [get_color_for_score, if_pos h0]⟩
  · by_cases h3 : s ≤ 3
    · refine Or.inr (Or.inl ⟨by omega, h3, ?_⟩)
      rw [get_color_for_score, if_neg h0, if_pos (⟨by omega, h3⟩ : 1 ≤ s ∧ s ≤ 3)]
    · by_cases h6 : s ≤ 6
      · refine Or.inr (Or.inr (Or.inl ⟨by omega, h6, ?_⟩))
        rw [get_color_for_score, if_neg h0, if_neg (by omega : ¬(1 ≤ s ∧ s ≤ 3)),
          if_pos (⟨by omega, h6⟩ : 4 ≤ s ∧ s ≤ 6)]
      · refine Or.inr (Or.inr (Or.inr ⟨by omega, ?_⟩))
        rw [get_color_for_score, if_neg h0, if_neg (by omega : ¬(1 ≤ s ∧ s ≤ 3)),
          if_neg (by omega : ¬(4 ≤ s ∧ s ≤ 6))]

theorem scoreStep_sum (scores : List (String × Nat)) (e : PyEvent)
    (hk : scores.map Prod.fst = TUNISIAN_GOVERNORATES) :
    sumValues (scoreStep scores e) = sumValues scores + (countedEvent e).toNat := by
  have hmem : ∀ k, alMem k scores = true ↔ k ∈ TUNISIAN_GOVERNORATES := by
    intro k; rw [alMem_iff, hk]
  simp only [scoreStep]
  by_cases h1 : eventCity e = "" ∨ eventCity e ∈ skipCities
  · simp [h1, countedEvent]
  · rw [if_neg h1]
    by_cases h2 : cityToGov (eventCity e) ∈ TUNISIAN_GOVERNORATES
    · rw [if_pos ((hmem _).mpr h2), sumValues_update_succ _ _ ((hmem _).mpr h2)]
      simp [countedEvent, h1, h2]
    · rw [if_neg (fun hh => h2 ((hmem _).mp hh))]
      by_cases h3 : eventCity e ∈ TUNISIAN_GOVERNORATES
      · rw [if_pos ((hmem _).mpr h3), sumValues_update_succ _ _ ((hmem _).mpr h3)]
        simp [countedEvent, h1, h2, h3]
      · rw [if_neg (fun hh => h3 ((hmem _).mp hh))]
        simp [countedEvent, h1, h2, h3]

theorem foldl_scoreStep_sum (events : List PyEvent) (scores : List (String × Nat))
    (hk : scores.map Prod.fst = TUNISIAN_GOVERNORATES) :
    sumValues (events.foldl scoreStep scores) =
      sumValues scores + events.countP countedEvent := by
  induction events generalizing scores with
  | nil => simp
  | cons e es ih =>
    rw [List.foldl_cons, ih _ (by rw [scoreStep_keys, hk]), scoreStep_sum scores e hk,
      List.countP_cons]
    cases hce : countedEvent e
    · simp [hce]
    · simp [hce]
      omega

/-- Claim C1: the sum of the values of calculate_governorate_scores equals the
number of events whose city resolves to a governorate bucket; empty, Unknown,
Error, Pending and unmatched cities contribute nothing to the sum. -/
theorem calculate_scores_sum (events : List PyEvent) :
    sumValues (calculate_governorate_scores events) = events.countP countedEvent := by
  have h0 : sumValues initScores = 0 := by decide
  rw [calculate_governorate_scores,
    foldl_scoreStep_sum events initScores initScores_keys, h0, Nat.zero_add]

/-- Claim C4: for every input, the key list of both calculate_governorate_scores
and get_heatmap_data is exactly the fixed ordered 24-governorate taxonomy. -/
theorem heatmap_keys_fixed (events : List PyEvent) :
    (calculate_governorate_scores events).map Prod.fst = TUNISIAN_GOVERNORATES ∧
    (get_heatmap_data events).map Prod.fst = TUNISIAN_GOVERNORATES := by
  constructor
  · rw [calculate_governorate_scores, foldl_scoreStep_keys, initScores_keys]
  · rw [get_heatmap_data, foldl_heatStep_keys, heatInit_keys]

/-! ### Per-bucket characterisation of get_heatmap_data -/

theorem alGet_map_const {α : Type} (g : String) (c : α) (l : List String) :
    alGet g (l.map (fun k => (k, c))) = if g ∈ l then some c else none := by
  induction l with
  | nil => simp [alGet]
  | cons k t ih =>
    by_cases h : k = g
    · simp [alGet, h]
    · have h2 : ¬ g = k := fun hh => h hh.symm
      simp [alGet, h, ih, List.mem_cons, h2]

theorem heatStep_get (hd : List (String × GovData)) (e : PyEvent) (g : String)
    (hk : hd.map Prod.fst = TUNISIAN_GOVERNORATES) :
    alGet g (heatStep hd e) =
      if eventTarget e = some g then (alGet g hd).map (bumpGov e) else alGet g hd := by
  have hmem : ∀ k, alMem k hd = true ↔ k ∈ TUNISIAN_GOVERNORATES := fun k => by
    rw [alMem_iff, hk]
  simp only [heatStep, eventTarget]
  by_cases h1 : eventCity e = "" ∨ eventCity e ∈ skipCities
  · rw [if_pos h1, if_pos h1]
    simp
  · rw [if_neg h1, if_neg h1]
    by_cases h2 : cityToGov (eventCity e) ∈ TUNISIAN_GOVERNORATES
    · rw [if_pos ((hmem _).mpr h2), if_pos h2]
      by_cases hg : cityToGov (eventCity e) = g
      · subst hg
        simp [alGet_update_self]
      · have : ¬ (some (cityToGov (eventCity e)) = some g) := by simp [hg]
        simp only [if_neg this]
        exact alGet_update_ne _ _ _ _ (fun hh => hg hh.symm)
    · rw [if_neg (fun hh => h2 ((hmem _).mp hh)), if_neg h2]
      by_cases h3 : eventCity e ∈ TUNISIAN_GOVERNORATES
      · rw [if_pos ((hmem _).mpr h3), if_pos h3]
        by_cases hg : eventCity e = g
        · subst hg
          simp [alGet_update_self]
        · have : ¬ (some (eventCity e) = some g) := by simp [hg]
          simp only [if_neg this]
          exact alGet_update_ne _ _ _ _ (fun hh => hg hh.symm)
      · rw [if_neg (fun hh => h3 ((hmem _).mp hh)), if_neg h3]
        simp

theorem bumpGov_mkBucket (e : PyEvent) (l : List PyEvent) :
    bumpGov e (mkBucket l) = mkBucket (l ++ [e]) := by
  have hlen : (l ++ [e]).length = l.length + 1 := by simp
  have hev : (if (l.take 5).length < 5 then l.take 5 ++ [e] else l.take 5)
      = (l ++ [e]).take 5 := by
    by_cases h : l.length < 5
    · have h5 : (l.take 5).length < 5 := by
        rw [List.length_take]; omega
      rw [if_pos h5, List.take_of_length_le (by omega : l.length ≤ 5),
        List.take_of_length_le (by rw [hlen]; omega)]
    · have h5 : ¬ (l.take 5).length < 5 := by
        rw [List.length_take]; omega
      rw [if_neg h5, List.take_append_of_le_length (by omega)]
  simp only [bumpGov, mkBucket]
  rw [hlen, hev]

theorem heatmap_bucket (events : List PyEvent) (g : String)
    (hg : g ∈ TUNISIAN_GOVERNORATES) :
    alGet g (get_heatmap_data events) =
      some (mkBucket (events.filter (fun e => decide (eventTarget e = some g)))) := by
  induction events using List.reverseRecOn with
  | nil =>
    rw [get_heatmap_data, List.foldl_nil, heatInit, alGet_map_const, if_pos hg]
    rfl
  | append_singleton es e ih =>
    rw [get_heatmap_data, List.foldl_append, List.foldl_cons, List.foldl_nil,
      ← get_heatmap_data,
      heatStep_get _ e g (by
        rw [get_heatmap_data, foldl_heatStep_keys, heatInit_keys]),
      ih, List.filter_append]
    by_cases ht : eventTarget e = some g
    · rw [if_pos ht]
      simp only [Option.map_some']
      have : List.filter (fun e => decide (eventTarget e = some g)) [e] = [e] := by
        simp [ht]
      rw [this, bumpGov_mkBucket]
    · rw [if_neg ht]
      have : List.filter (fun e => decide (eventTarget e = some g)) [e] = [] := by
        simp [ht]
      rw [this, List.append_nil]

/-- Claim C5: for every governorate bucket produced by get_heatmap_data, the
sample list holds at most 5 records and is exactly the first min(score, 5)
matching events in input order, events_count equals score which is the true
count of matching events, and color equals get_color_for_score of the score. -/
theorem heatmap_bucket_spec (events : List PyEvent) (g : String)
    (hg : g ∈ TUNISIAN_GOVERNORATES) :
    ∃ d, alGet g (get_heatmap_data events) = some d ∧
      d.events = (events.filter (fun e => decide (eventTarget e = some g))).take 5 ∧
      d.events.length ≤ 5 ∧
      d.score = (events.filter (fun e => decide (eventTarget e = some g))).length ∧
      d.events_count = d.score ∧
      d.color = get_color_for_score d.score := by
  refine ⟨_, heatmap_bucket events g hg, rfl, ?_, rfl, rfl, rfl⟩
  simp only [mkBucket]
  rw [List.length_take]
  omega

/-- Witness for C5 at a concrete governorate and event list. -/
theorem heatmap_bucket_spec_witness :
    ∃ d, alGet "Tunis" (get_heatmap_data [⟨some "Tunis", "a", "u", 0⟩]) = some d ∧
      d.events = (List.filter (fun e => decide (eventTarget e = some "Tunis"))
        [⟨some "Tunis", "a", "u", 0⟩]).take 5 ∧
      d.events.length ≤ 5 ∧
      d.score = (List.filter (fun e => decide (eventTarget e = some "Tunis"))
        [⟨some "Tunis", "a", "u", 0⟩]).length ∧
      d.events_count = d.score ∧
      d.color = get_color_for_score d.score :=
  heatmap_bucket_spec [⟨some "Tunis", "a", "u", 0⟩] "Tunis" (by decide)

/-! ### The heatmap summary -/

theorem alist_filter_pos_keys (l : List (String × Nat))
    (hnd : (l.map Prod.fst).Nodup) :
    (l.filter (fun p => decide (0 < p.2))).map Prod.fst
      = (l.map Prod.fst).filter (fun g => decide (0 < (alGet g l).getD 0)) := by
  induction l with
  | nil => rfl
  | cons p t ih =>
    obtain ⟨k, v⟩ := p
    simp only [List.map_cons, List.nodup_cons] at hnd
    obtain ⟨hk, hnd2⟩ := hnd
    have htail : (t.map Prod.fst).filter
          (fun g => decide (0 < (alGet g ((k, v) :: t)).getD 0))
        = (t.map Prod.fst).filter (fun g => decide (0 < (alGet g t).getD 0)) := by
      apply List.filter_congr
      intro g hg
      have : ¬ k = g := fun hh => hk (hh ▸ hg)
      rw [alGet, if_neg this]
    have hhead : alGet k ((k, v) :: t) = some v := by rw [alGet, if_pos rfl]
    by_cases hv : 0 < v
    · simp only [List.filter_cons, List.map_cons]
      rw [if_pos (by simpa using hv), if_pos (by simp [hhead, hv])]
      simp only [List.map_cons]
      rw [htail, ih hnd2]
    · simp only [List.filter_cons, List.map_cons]
      rw [if_neg (by simpa using hv), if_neg (by simp [hhead, hv])]
      rw [htail, ih hnd2]

/-- Claim C7: get_heatmap_summary returns the sum of the scores as
total_events, the number of nonzero buckets as active_governorates, the
constant 24 as total_governorates, and the nonzero-score governorate names in
taxonomy order as governorates_with_events. -/
theorem heatmap_summary_spec (events : List PyEvent) :
    (get_heatmap_summary events).total_events
        = sumValues (calculate_governorate_scores events) ∧
    (get_heatmap_summary events).active_governorates
        = TUNISIAN_GOVERNORATES.countP (fun g => decide (govScore events g ≠ 0)) ∧
    (get_heatmap_summary events).total_governorates = 24 ∧
    (get_heatmap_summary events).governorates_with_events
        = TUNISIAN_GOVERNORATES.filter (fun g => decide (govScore events g ≠ 0)) := by
  have hkeys : (calculate_governorate_scores events).map Prod.fst
      = TUNISIAN_GOVERNORATES := by
    rw [calculate_governorate_scores, foldl_scoreStep_keys, initScores_keys]
  have hnd : ((calculate_governorate_scores events).map Prod.fst).Nodup := by
    rw [hkeys]
    decide
  have hmap : ((calculate_governorate_scores events).filter
        (fun p => decide (0 < p.2))).map Prod.fst
      = TUNISIAN_GOVERNORATES.filter (fun g => decide (govScore events g ≠ 0)) := by
    rw [alist_filter_pos_keys _ hnd, hkeys]
    apply List.filter_congr
    intro g _
    rw [decide_eq_decide]
    rw [govScore]
    exact Nat.pos_iff_ne_zero
  refine ⟨rfl, ?_, rfl, hmap⟩
  have hlen := congrArg List.length hmap
  rw [List.length_map] at hlen
  show ((calculate_governorate_scores events).map Prod.snd).countP
      (fun v => decide (0 < v)) = _
  rw [List.countP_map, List.countP_eq_length_filter, List.countP_eq_length_filter]
  rw [show ((fun v => decide (0 < v)) ∘ Prod.snd : String × Nat → Bool)
      = (fun p => decide (0 < p.2)) from rfl]
  exact hlen

theorem scoreStep_eq_simple (scores : List (String × Nat)) (e : PyEvent)
    (hk : scores.map Prod.fst = TUNISIAN_GOVERNORATES) :
    scoreStep scores e = scoreStepSimple scores e := by
  have hmem : ∀ k, alMem k scores = true ↔ k ∈ TUNISIAN_GOVERNORATES := fun k => by
    rw [alMem_iff, hk]
  simp only [scoreStep, scoreStepSimple]
  by_cases h1 : eventCity e = "" ∨ eventCity e ∈ skipCities
  · rw [if_pos h1, if_pos h1]
  · rw [if_neg h1, if_neg h1]
    by_cases h2 : alMem (cityToGov (eventCity e)) scores = true
    · rw [if_pos h2, if_pos h2]
    · rw [if_neg h2, if_neg h2]
      have h3 : ¬ alMem (eventCity e) scores = true := by
        intro hc
        apply h2
        have hcg : eventCity e ∈ TUNISIAN_GOVERNORATES := (hmem _).mp hc
        have hfix : ∀ c ∈ TUNISIAN_GOVERNORATES, cityToGov c = c := by decide
        rw [hfix _ hcg]
        exact (hmem _).mpr hcg
      rw [if_neg h3]

theorem foldl_scores_eq_simple (events : List PyEvent) (scores : List (String × Nat))
    (hk : scores.map Prod.fst = TUNISIAN_GOVERNORATES) :
    events.foldl scoreStep scores = events.foldl scoreStepSimple scores := by
  induction events generalizing scores with
  | nil => rfl
  | cons e es ih =>
    rw [List.foldl_cons, List.foldl_cons, ← scoreStep_eq_simple scores e hk,
      ih _ (by rw [scoreStep_keys, hk])]

/-- Claim C10: CITY_TO_GOVERNORATE is the identity on exactly the 24
governorate names, so calculate_governorate_scores coincides with the
simplified scorer that only tests the normalised name: the elif fallback
branch that increments by raw city name is unreachable. -/
theorem city_map_identity (events : List PyEvent) :
    List.Perm (CITY_TO_GOVERNORATE.map Prod.fst) TUNISIAN_GOVERNORATES ∧
    (∀ p ∈ CITY_TO_GOVERNORATE, p.2 = p.1) ∧
    calculate_governorate_scores events = calculate_scores_simple events := by
  refine ⟨by decide, by decide, ?_⟩
  rw [calculate_governorate_scores, calculate_scores_simple,
    foldl_scores_eq_simple events initScores initScores_keys]

/-- Witness for C10 at a concrete table entry. -/
theorem city_map_identity_witness :
    (("Tunis", "Tunis") : String × String).2 = ("Tunis", "Tunis").1 :=
  (city_map_identity []).2.1 ("Tunis", "Tunis") (by decide)

theorem scoreStep_error (scores : List (String × Nat)) (e : PyEvent)
    (he : eventCity e = "Error") : scoreStep scores e = scores := by
  have h : eventCity e = "" ∨ eventCity e ∈ skipCities := by
    right
    rw [he]
    decide
  simp only [scoreStep]
  rw [if_pos h]

theorem heatStep_error (hd : List (String × GovData)) (e : PyEvent)
    (he : eventCity e = "Error") : heatStep hd e = hd := by
  have h : eventCity e = "" ∨ eventCity e ∈ skipCities := by
    right
    rw [he]
    decide
  simp only [heatStep]
  rw [if_pos h]

/-- Claim C8: the orchestrator replaces a resolver result Unknown by the fixed
default Tunis, assigns any other result, in particular Error, unchanged, and
every event carrying city Error is skipped by the aggregation functions. -/
theorem unknown_coerced_error_preserved (c : String) (e : PyEvent)
    (es1 es2 : List PyEvent) (hc : c ≠ "Unknown") (he : eventCity e = "Error") :
    applyTunisRule "Unknown" = "Tunis" ∧
    applyTunisRule c = c ∧
    calculate_governorate_scores (es1 ++ e :: es2)
      = calculate_governorate_scores (es1 ++ es2) ∧
    get_heatmap_data (es1 ++ e :: es2) = get_heatmap_data (es1 ++ es2) := by
  refine ⟨rfl, ?_, ?_, ?_⟩
  · rw [applyTunisRule, if_neg hc]
  · rw [calculate_governorate_scores, calculate_governorate_scores,
      List.foldl_append, List.foldl_append, List.foldl_cons,
      scoreStep_error _ e he]
  · rw [get_heatmap_data, get_heatmap_data, List.foldl_append, List.foldl_append,
      List.foldl_cons, heatStep_error _ e he]

/-- Witness for C8 at concrete inputs. -/
theorem unknown_coerced_error_preserved_witness :
    applyTunisRule "Unknown" = "Tunis" ∧
    applyTunisRule "Error" = "Error" ∧
    calculate_governorate_scores ([] ++ ⟨some "Error", "x", "u", 0⟩ :: [])
      = calculate_governorate_scores ([] ++ []) ∧
    get_heatmap_data ([] ++ ⟨some "Error", "x", "u", 0⟩ :: [])
      = get_heatmap_data ([] ++ []) :=
  unknown_coerced_error_preserved "Error" ⟨some "Error", "x", "u", 0⟩ [] []
    (by decide) (by decide)

/-- Counterexample to claim C2 as stated: the page navigation precedes the
title tier, so an event whose title holds an alias key as a whole word still
resolves to Error when the navigation fails, and no network-free answer
exists. -/
theorem title_tier_fetch_failure_counterexample :
    reSearchWord "monastir" (pyLower "Soirée à Monastir") = true ∧
    titleTier (some "Soirée à Monastir") = some "Monastir" ∧
    extract_city_from_event_page .failed (some "Soirée à Monastir") = "Error" :=
  ⟨by decide, by decide, rfl⟩

/-- Claim C2 (amended): when the page navigation succeeds, the title tier is
evaluated first: a title containing an alias key as a whole word resolves to
the mapped canonical city whatever the address blocks hold, and that city is
never Error; a failing navigation, however, yields Error even for such a
title. -/
theorem title_tier_precedence (page : EventPage) (n c : String)
    (h : titleTier (some n) = some c) :
    extract_city_from_event_page (.ok page) (some n) = c ∧ c ≠ "Error" := by
  constructor
  · simp only [extract_city_from_event_page, h]
  · have hmem : c ∈ CITY_ALIASES.map Prod.snd := by
      simp only [titleTier] at h
      by_cases hn : n = ""
      · rw [if_pos hn] at h
        exact absurd h (by simp)
      · rw [if_neg hn] at h
        obtain ⟨p, hp1, hp2⟩ := Option.map_eq_some'.mp h
        rw [← hp2]
        exact List.mem_map_of_mem Prod.snd (List.mem_of_find?_eq_some hp1)
    have hall : ∀ x ∈ CITY_ALIASES.map Prod.snd, x ≠ "Error" := by decide
    exact hall c hmem

/-- Witness for C2 amended: differing address block mentioning Sfax, title
mentioning Monastir; the title wins. -/
theorem title_tier_precedence_witness :
    extract_city_from_event_page (.ok ⟨["Sfax"], []⟩) (some "Soirée à Monastir")
      = "Monastir" ∧ ("Monastir" : String) ≠ "Error" :=
  title_tier_precedence ⟨["Sfax"], []⟩ "Soirée à Monastir" "Monastir" (by decide)

theorem crawlFold_find (items : List CrawlItem) (evs : List ScrapedEvent)
    (seen : List String) (u : String) (hinv : seen = evs.map ScrapedEvent.url) :
    ((items.foldl crawlStep (evs, seen)).1).find? (fun e => decide (e.url = u)) =
      (evs.find? (fun e => decide (e.url = u))).or
        (((resolvedItems items).find? (fun p => decide (p.2 = u))).map
          (fun p => mkScraped p.1 p.2)) := by
  induction items generalizing evs seen with
  | nil => simp [resolvedItems]
  | cons it rest ih =>
    rw [List.foldl_cons]
    cases hraw : rawHref it with
    | none =>
      have hstep : crawlStep (evs, seen) it = (evs, seen) := by
        simp [crawlStep, hraw]
      have hri : resolvedItems (it :: rest) = resolvedItems rest := by
        simp [resolvedItems, hraw]
      rw [hstep, ih evs seen hinv, hri]
    | some h =>
      have hri : resolvedItems (it :: rest)
          = (it, resolveHref h) :: resolvedItems rest := by
        simp [resolvedItems, hraw]
      by_cases hs : resolveHref h ∈ seen
      · have hstep : crawlStep (evs, seen) it = (evs, seen) := by
          simp [crawlStep, hraw, hs]
        rw [hstep, ih evs seen hinv, hri]
        by_cases hu : resolveHref h = u
        · have hin : u ∈ evs.map ScrapedEvent.url := by
            rw [← hinv, ← hu]
            exact hs
          obtain ⟨e, hemem, heu⟩ := List.mem_map.mp hin
          cases he2 : evs.find? (fun e => decide (e.url = u)) with
          | none =>
            rw [List.find?_eq_none] at he2
            exact absurd (by simp [heu]) (he2 e hemem)
          | some e2 => simp
        · rw [List.find?_cons_of_neg _ (by simp [hu])]
      · have hstep : crawlStep (evs, seen) it
            = (evs ++ [mkScraped it (resolveHref h)], seen ++ [resolveHref h]) := by
          simp [crawlStep, hraw, hs]
        have hinv2 : seen ++ [resolveHref h]
            = (evs ++ [mkScraped it (resolveHref h)]).map ScrapedEvent.url := by
          rw [List.map_append, hinv]
          rfl
        rw [hstep, ih _ _ hinv2, hri, List.find?_append]
        by_cases hu : resolveHref h = u
        · have hnone : evs.find? (fun e => decide (e.url = u)) = none := by
            rw [List.find?_eq_none]
            intro e hmem
            simp only [decide_eq_true_eq]
            intro hh
            apply hs
            rw [hinv]
            rw [hu]
            exact List.mem_map.mpr ⟨e, hmem, hh⟩
          have hone : ([mkScraped it (resolveHref h)]).find?
              (fun e => decide (e.url = u)) = some (mkScraped it (resolveHref h)) := by
            apply List.find?_cons_of_pos
            simp [mkScraped, hu]
          rw [hnone, hone, List.find?_cons_of_pos _ (by simp [hu])]
          simp
        · have hone : ([mkScraped it (resolveHref h)]).find?
              (fun e => decide (e.url = u)) = none := by
            apply List.find?_cons_of_neg
            simp [mkScraped, hu]
          rw [hone, List.find?_cons_of_neg _ (by simp [hu])]
          cases evs.find? (fun e => decide (e.url = u)) <;> simp

theorem crawlFold_nodup (items : List CrawlItem) (evs : List ScrapedEvent)
    (seen : List String) (hinv : seen = evs.map ScrapedEvent.url)
    (hnd : (evs.map ScrapedEvent.url).Nodup) :
    (((items.foldl crawlStep (evs, seen)).1).map ScrapedEvent.url).Nodup := by
  induction items generalizing evs seen with
  | nil => simpa using hnd
  | cons it rest ih =>
    rw [List.foldl_cons]
    cases hraw : rawHref it with
    | none =>
      have hstep : crawlStep (evs, seen) it = (evs, seen) := by
        simp [crawlStep, hraw]
      rw [hstep]
      exact ih evs seen hinv hnd
    | some h =>
      by_cases hs : resolveHref h ∈ seen
      · have hstep : crawlStep (evs, seen) it = (evs, seen) := by
          simp [crawlStep, hraw, hs]
        rw [hstep]
        exact ih evs seen hinv hnd
      · have hstep : crawlStep (evs, seen) it
            = (evs ++ [mkScraped it (resolveHref h)], seen ++ [resolveHref h]) := by
          simp [crawlStep, hraw, hs]
        rw [hstep]
        apply ih _ _ (by rw [List.map_append, hinv]; rfl)
        rw [List.map_append]
        rw [List.nodup_append]
        refine ⟨hnd, List.nodup_singleton _, ?_⟩
        intro a ha hb
        simp only [mkScraped, List.map_cons, List.map_nil, List.mem_singleton] at hb
        apply hs
        rw [hinv, ← hb]
        exact ha

/-- Claim C9: within one crawl run the produced event list has pairwise
distinct urls: each href is resolved to absolute form first (relative ones
prefixed with the site origin inside resolveHref), and for every url the
surviving record is exactly the one built from the first valid item whose
resolved href is that url; later items with the same resolved url are
dropped. -/
theorem crawl_dedup (items : List CrawlItem) (u : String) :
    ((collectEvents items).map ScrapedEvent.url).Nodup ∧
    (collectEvents items).find? (fun e => decide (e.url = u)) =
      ((resolvedItems items).find? (fun p => decide (p.2 = u))).map
        (fun p => mkScraped p.1 p.2) := by
  constructor
  · exact crawlFold_nodup items [] [] rfl (by simp)
  · have hf := crawlFold_find items [] [] u rfl
    rw [collectEvents, hf]
    simp

theorem dbUpdateByUrl_mem_of_ne (u : String) (f : DBEvent → DBEvent)
    (l : List DBEvent) (e2 : DBEvent) (h2 : e2 ∈ l) (hne : e2.url ≠ u) :
    e2 ∈ dbUpdateByUrl u f l := by
  induction l with
  | nil => cases h2
  | cons ev rest ih =>
    by_cases he : ev.url = u
    · rw [dbUpdateByUrl, if_pos he]
      rcases List.mem_cons.mp h2 with h | h
      · exact absurd (h ▸ he) hne
      · exact List.mem_cons_of_mem _ h
    · rw [dbUpdateByUrl, if_neg he]
      rcases List.mem_cons.mp h2 with h | h
      · rw [h]
        exact List.mem_cons_self ev _
      · exact List.mem_cons_of_mem _ (ih h)

/-- Counterexample to claim C3 as stated: upserting a row whose url matches a
stored pending event overwrites the stored status with approved instead of
leaving it unchanged. -/
theorem upsert_status_counterexample :
    (importRow ⟨[⟨1, "Old", "P", "D", "Pr", "u1", "Tunis", "pending", 0, 0⟩], 0, 0⟩
        ⟨some "New", none, none, none, some "u1", none, none⟩ 5 false 2).db
      = [⟨1, "New", "P", "D", "Pr", "u1", "Tunis", "approved", 0, 5⟩] ∧
    ("approved" : String) ≠ "pending" := by
  constructor
  · rfl
  · decide

/-- Claim C3 (amended): the upsert updates the mutable fields name, place,
date, price, city, updated_at, overwrites scraped_at only when supplied,
forces status to approved rather than leaving it unchanged, keeps id and url
and the other stored events; without a matching url and without a constraint
conflict the row is inserted as a new approved record; an IntegrityError on
insert is rolled back and counted with the skipped total reported as
updated. -/
theorem import_upsert_contract (st : ImportState) (row : CsvRow) (now : Nat)
    (conflict : Bool) (newId : Nat) :
    (∀ ev, st.db.find? (fun e => decide (e.url = rowUrl row)) = some ev →
      (importRow st row now conflict newId).db
          = dbUpdateByUrl (rowUrl row) (fun e0 => updateExisting e0 row now) st.db ∧
      (updateExisting ev row now).id = ev.id ∧
      (updateExisting ev row now).url = ev.url ∧
      (updateExisting ev row now).status = "approved" ∧
      (updateExisting ev row now).name = row.name?.getD ev.name ∧
      (updateExisting ev row now).place = row.place?.getD ev.place ∧
      (updateExisting ev row now).date = row.date?.getD ev.date ∧
      (updateExisting ev row now).price = row.price?.getD ev.price ∧
      (updateExisting ev row now).city = row.city?.getD ev.city ∧
      (updateExisting ev row now).updated_at = now ∧
      (row.scraped_at? = none →
        (updateExisting ev row now).scraped_at = ev.scraped_at) ∧
      (∀ t, row.scraped_at? = some t → (updateExisting ev row now).scraped_at = t) ∧
      (∀ e2 ∈ st.db, e2.url ≠ rowUrl row →
        e2 ∈ (importRow st row now conflict newId).db) ∧
      (importRow st row now conflict newId).skipped = st.skipped + 1 ∧
      (importRow st row now conflict newId).imported = st.imported) ∧
    (st.db.find? (fun e => decide (e.url = rowUrl row)) = none → conflict = false →
      (importRow st row now conflict newId).db
          = st.db ++ [newEventFromRow row now newId] ∧
      (newEventFromRow row now newId).status = "approved" ∧
      (importRow st row now conflict newId).imported = st.imported + 1 ∧
      (importRow st row now conflict newId).skipped = st.skipped) ∧
    (st.db.find? (fun e => decide (e.url = rowUrl row)) = none → conflict = true →
      (importRow st row now conflict newId).db = st.db ∧
      (importRow st row now conflict newId).skipped = st.skipped + 1 ∧
      (importRow st row now conflict newId).imported = st.imported) := by
  refine ⟨?_, ?_, ?_⟩
  · intro ev hev
    have hstep : importRow st row now conflict newId
        = { st with
            db := dbUpdateByUrl (rowUrl row)
              (fun e0 => updateExisting e0 row now) st.db
            skipped := st.skipped + 1 } := by
      simp only [importRow, hev]
    refine ⟨by rw [hstep], rfl, rfl, rfl, rfl, rfl, rfl, rfl, rfl, rfl,
      ?_, ?_, ?_, by rw [hstep], by rw [hstep]⟩
    · intro hn
      simp [updateExisting, hn]
    · intro t ht
      simp [updateExisting, ht]
    · intro e2 hmem hne
      rw [hstep]
      exact dbUpdateByUrl_mem_of_ne _ _ _ _ hmem hne
  · intro hnone hcf
    have hstep : importRow st row now conflict newId
        = { st with
            db := st.db ++ [newEventFromRow row now newId]
            imported := st.imported + 1 } := by
      simp only [importRow, hnone, hcf]
      rfl
    exact ⟨by rw [hstep], rfl, by rw [hstep], by rw [hstep]⟩
  · intro hnone hcf
    have hstep : importRow st row now conflict newId
        = { st with skipped := st.skipped + 1 } := by
      simp only [importRow, hnone, hcf]
      rfl
    exact ⟨by rw [hstep], by rw [hstep], by rw [hstep]⟩

/-- Witness for C3 amended: the insert path on an empty sink. -/
theorem import_upsert_contract_witness :
    (importRow ⟨[], 0, 0⟩ ⟨none, none, none, none, some "u", none, none⟩ 3 false 7).db
        = [] ++ [newEventFromRow ⟨none, none, none, none, some "u", none, none⟩ 3 7] ∧
    (newEventFromRow ⟨none, none, none, none, some "u", none, none⟩ 3 7).status
        = "approved" ∧
    (importRow ⟨[], 0, 0⟩ ⟨none, none, none, none, some "u", none, none⟩
        3 false 7).imported = 0 + 1 ∧
    (importRow ⟨[], 0, 0⟩ ⟨none, none, none, none, some "u", none, none⟩
        3 false 7).skipped = 0 :=
  (import_upsert_contract ⟨[], 0, 0⟩ ⟨none, none, none, none, some "u", none, none⟩
    3 false 7).2.1 rfl rfl

end TNBN
